import Mathlib

/-!
Shallow embedding of the chebygame DSP engine (the AnimatedParameter,
FilterStage, FilterCascade and ChebyshevSolver classes of the source) and
proofs of the behavioural properties claimed for it.

Real-valued JavaScript arithmetic is modelled over the real numbers; the
places where the source can produce NaN or Infinity (the Math.acosh /
Math.sqrt domains and division inside getMinOrder) are modelled explicitly
by the JsVal type below.
-/

open Real

namespace Chebygame

noncomputable section

/-- Complex value as a pair (re, im) of real numbers; the source passes
objects of shape that braces re and im around. -/
structure Cplx where
  re : ℝ
  im : ℝ

/-- Complex multiplication (a+bi)(c+di) = (ac-bd) + (ad+bc)i, as inlined in
FilterCascade.getResponse. -/
def cmul (a b : Cplx) : Cplx :=
  Cplx.mk (a.re * b.re - a.im * b.im) (a.re * b.im + a.im * b.re)

/-- State of the AnimatedParameter class: a value oscillating inside
inclusive bounds, with an animation flag and a sine phase. -/
structure AnimatedParameter where
  value : ℝ
  min : ℝ
  max : ℝ
  isAnimating : Bool
  phase : ℝ

/-- The AnimatedParameter constructor: stores the value, then autoRange
frames the bounds by the tolerance fraction (the source reads the tolerance
from a DOM slider and defaults to 0.2; it is a parameter here), animation
off, phase 0. -/
noncomputable def AnimatedParameter.create (v tolerance : ℝ) : AnimatedParameter :=
  { value := v
    min := Max.max 0 (v * (1 - tolerance))
    max := v * (1 + tolerance)
    isAnimating := false
    phase := 0 }

/-- AnimatedParameter.autoRange: recomputes the bounds around the current
value; the value itself is untouched. -/
noncomputable def AnimatedParameter.autoRange (p : AnimatedParameter) (tolerance : ℝ) :
    AnimatedParameter :=
  { p with
    min := Max.max 0 (p.value * (1 - tolerance))
    max := p.value * (1 + tolerance) }

/-- AnimatedParameter.setRange: sets min to max(0, requested min), max to
the requested max unconditionally, then clamps value first from below by
the new min and then from above by the new max.  The source performs no
validation and signals no error. -/
noncomputable def AnimatedParameter.setRange (p : AnimatedParameter) (lo hi : ℝ) :
    AnimatedParameter :=
  let newMin := Max.max 0 lo
  let v1 := if p.value < newMin then newMin else p.value
  let v2 := if v1 > hi then hi else v1
  { p with min := newMin, max := hi, value := v2 }

/-- AnimatedParameter.update: when animating, advances the phase by
deltaTime * speed * 2π, subtracts 2π once when the result strictly exceeds
2π, and maps sin of the new phase onto [min, max]. -/
noncomputable def AnimatedParameter.update (p : AnimatedParameter) (deltaTime speed : ℝ) :
    AnimatedParameter :=
  if p.isAnimating then
    let ph1 := p.phase + deltaTime * speed * 2 * π
    let ph2 := if ph1 > 2 * π then ph1 - 2 * π else ph1
    let normalized := (Real.sin ph2 + 1) / 2
    { p with phase := ph2, value := p.min + normalized * (p.max - p.min) }
  else p

/-- AnimatedParameter.startAnimation. -/
def AnimatedParameter.startAnimation (p : AnimatedParameter) : AnimatedParameter :=
  { p with isAnimating := true }

/-- AnimatedParameter.stopAnimation. -/
def AnimatedParameter.stopAnimation (p : AnimatedParameter) : AnimatedParameter :=
  { p with isAnimating := false }

/-- The two concrete FilterStage subclasses and their owned parameters:
FirstOrderLowPass owns f0, SecondOrderLowPass owns f0 and Q. -/
inductive StageBody where
  | firstOrder (f0 : AnimatedParameter)
  | secondOrder (f0 Q : AnimatedParameter)

/-- A stage as held by a cascade: the identity assigned by the
FilterStage.nextId counter, the active flag, and the variant body. -/
structure Stage where
  id : ℤ
  active : Bool
  body : StageBody

/-- getResponse of the concrete stages.
FirstOrderLowPass: H(jω) = f0(f0 - jω) / (f0² + ω²).
SecondOrderLowPass: H(jω) = f0² / ((f0²-ω²) + j(f0/Q)ω), written with the
real and imaginary parts over the squared denominator magnitude exactly as
in the source. -/
noncomputable def StageBody.getResponse : StageBody → ℝ → Cplx
  | .firstOrder f0p, omega =>
      let f0 := f0p.value
      let denom := f0 * f0 + omega * omega
      Cplx.mk (f0 * f0 / denom) (-f0 * omega / denom)
  | .secondOrder f0p Qp, omega =>
      let f0 := f0p.value
      let Q := Qp.value
      let realPart := f0 * f0 - omega * omega
      let imagPart := (f0 / Q) * omega
      let denomMagSq := realPart * realPart + imagPart * imagPart
      let num := f0 * f0
      Cplx.mk (num * realPart / denomMagSq) (-(num * imagPart) / denomMagSq)

/-- FilterStage.getMagnitude: |H(jω)| = sqrt(re² + im²). -/
noncomputable def StageBody.getMagnitude (b : StageBody) (omega : ℝ) : ℝ :=
  let h := b.getResponse omega
  Real.sqrt (h.re * h.re + h.im * h.im)

/-- FilterStage.getMagnitudeDb: 20·log10 of the magnitude when it exceeds
1e-10, and the -200 dB floor otherwise. -/
noncomputable def StageBody.getMagnitudeDb (b : StageBody) (omega : ℝ) : ℝ :=
  let mag := b.getMagnitude omega
  if mag > 1e-10 then 20 * Real.logb 10 mag else -200

/-- The discriminant (f0/Q)²/4 - f0² computed by SecondOrderLowPass.getPoles. -/
def soDiscriminant (f0 Q : ℝ) : ℝ :=
  f0 * f0 / (4 * Q * Q) - f0 * f0

/-- getPoles of the concrete stages.  FirstOrderLowPass has the single real
pole -f0.  SecondOrderLowPass solves s² + (f0/Q)s + f0² = 0: with
α = f0/(2Q), a nonnegative discriminant gives the two real roots
-α ± sqrt(disc), a negative one the conjugate pair -α ± j·sqrt(-disc). -/
noncomputable def StageBody.getPoles : StageBody → List Cplx
  | .firstOrder f0p => [Cplx.mk (-f0p.value) 0]
  | .secondOrder f0p Qp =>
      let f0 := f0p.value
      let Q := Qp.value
      let alpha := f0 / (2 * Q)
      let discriminant := soDiscriminant f0 Q
      if discriminant ≥ 0 then
        let sqrtDisc := Real.sqrt discriminant
        [Cplx.mk (-alpha + sqrtDisc) 0, Cplx.mk (-alpha - sqrtDisc) 0]
      else
        let sqrtDisc := Real.sqrt (-discriminant)
        [Cplx.mk (-alpha) sqrtDisc, Cplx.mk (-alpha) (-sqrtDisc)]

/-- State of the FilterCascade class: the ordered stage list, the shared
animation speed (1.0 on construction) and the global gain in dB (0.0 on
construction). -/
structure FilterCascade where
  stages : List Stage
  animationSpeed : ℝ
  globalGainDb : ℝ

/-- A freshly constructed FilterCascade. -/
def FilterCascade.empty : FilterCascade :=
  { stages := [], animationSpeed := 1.0, globalGainDb := 0.0 }

/-- FilterCascade.addStage: appends the stage. -/
def FilterCascade.addStage (c : FilterCascade) (s : Stage) : FilterCascade :=
  { c with stages := c.stages ++ [s] }

/-- FilterCascade.removeStage: keeps exactly the stages whose id differs
from the argument. -/
def FilterCascade.removeStage (c : FilterCascade) (sid : ℤ) : FilterCascade :=
  { c with stages := c.stages.filter fun s => s.id != sid }

/-- FilterCascade.clearStages: empties the stage list and resets the global
gain to 0. -/
def FilterCascade.clearStages (c : FilterCascade) : FilterCascade :=
  { c with stages := [], globalGainDb := 0.0 }

/-- FilterCascade.getResponse: folds the responses of the active stages by
complex multiplication starting from (1, 0), then scales both components by
the linear gain 10^(globalGainDb/20). -/
noncomputable def FilterCascade.getResponse (c : FilterCascade) (omega : ℝ) : Cplx :=
  let folded := c.stages.foldl
    (fun acc s => if s.active then cmul acc (s.body.getResponse omega) else acc)
    (Cplx.mk 1 0)
  let linearGain := (10 : ℝ) ^ (c.globalGainDb / 20)
  Cplx.mk (folded.re * linearGain) (folded.im * linearGain)

/-- FilterCascade.getMagnitude. -/
noncomputable def FilterCascade.getMagnitude (c : FilterCascade) (omega : ℝ) : ℝ :=
  let h := c.getResponse omega
  Real.sqrt (h.re * h.re + h.im * h.im)

/-- FilterCascade.getMagnitudeDb, with the same 1e-10 / -200 dB floor as
the stages. -/
noncomputable def FilterCascade.getMagnitudeDb (c : FilterCascade) (omega : ℝ) : ℝ :=
  let mag := c.getMagnitude omega
  if mag > 1e-10 then 20 * Real.logb 10 mag else -200

/-- Math.acosh for arguments in its domain (x ≥ 1): the inverse hyperbolic
cosine log(x + sqrt(x² - 1)). -/
def arcosh (x : ℝ) : ℝ :=
  Real.log (x + Real.sqrt (x * x - 1))

namespace ChebyshevSolver

/-- ChebyshevSolver.getMinOrder under exact real arithmetic (the value the
source computes whenever every Math call stays inside its domain):
epsilon = sqrt(10^(Ap/10) - 1), A = 10^(As/20),
n = ceil(acosh(sqrt(A²-1)/epsilon) / acosh(ws/wp)). -/
def getMinOrder (wp ws Ap As : ℝ) : ℤ :=
  let epsilon := Real.sqrt ((10 : ℝ) ^ (Ap / 10) - 1)
  let A := (10 : ℝ) ^ (As / 20)
  let ratio := ws / wp
  ⌈arcosh (Real.sqrt (A * A - 1) / epsilon) / arcosh ratio⌉

/-- The pole records built by ChebyshevSolver.getPoles: objects with the
two fields sigma and omega (and no others). -/
structure ChebyPole where
  sigma : ℝ
  omega : ℝ

/-- ChebyshevSolver.getPoles: for k = 1..n, with γ = asinh(1/ε)/n and
θ_k = π(2k-1)/(2n), the pole (σ_k, ω_k) = (-wp·sinh γ·sin θ_k,
wp·cosh γ·cos θ_k). -/
def getPoles (n : ℤ) (epsilon wp : ℝ) : List ChebyPole :=
  let gamma := Real.arsinh (1 / epsilon) / (n : ℝ)
  (List.range n.toNat).map fun i =>
    let k : ℝ := (i : ℝ) + 1
    let theta := π * (2 * k - 1) / (2 * (n : ℝ))
    { sigma := -wp * Real.sinh gamma * Real.sin theta
      omega := wp * Real.cosh gamma * Real.cos theta }

/-- The field access p.im performed by getBestSolutionStages on a pole
record: the records carry only sigma and omega, so the access yields the
JS value undefined, modelled as none. -/
def ChebyPole.im (_ : ChebyPole) : Option ℝ := none

/-- The guard (p.im > 0) of the second-order loop: a JS comparison against
undefined is false (undefined converts to NaN, and every comparison with
NaN is false). -/
def jsGtZero : Option ℝ → Bool
  | none => false
  | some v => decide (0 < v)

/-- The guard (Math.abs(p.im) < 1e-10) of the first-order loop:
Math.abs(undefined) is NaN and NaN < 1e-10 is false. -/
def jsAbsLt : Option ℝ → ℝ → Bool
  | none, _ => false
  | some v, tol => decide (|v| < tol)

/-- The record returned by ChebyshevSolver.getBestSolutionStages. -/
structure SolutionStages where
  stages : List StageBody
  globalGainDb : ℝ

/-- ChebyshevSolver.getBestSolutionStages: recomputes n, epsilon and the
poles, then emits one SecondOrderLowPass(f0 = |pole|, Q = f0/(-2σ)) per
pole passing the guard (p.im > 0) and one FirstOrderLowPass(-σ) per pole
passing (Math.abs(p.im) < 1e-10), and sets globalGainDb to -Ap for even n
and to 0 otherwise.  The parameters of the new stages are framed by the
constructor with the default 0.2 tolerance.  Stage identities (the global
nextId counter) are not modelled. -/
def getBestSolutionStages (wp ws Ap As : ℝ) : SolutionStages :=
  let n := getMinOrder wp ws Ap As
  let epsilon := Real.sqrt ((10 : ℝ) ^ (Ap / 10) - 1)
  let poles := getPoles n epsilon wp
  let second := (poles.filter fun p => jsGtZero p.im).map fun p =>
    let f0 := Real.sqrt (p.sigma * p.sigma + p.omega * p.omega)
    let Q := f0 / (-2 * p.sigma)
    StageBody.secondOrder (AnimatedParameter.create f0 0.2) (AnimatedParameter.create Q 0.2)
  let first := (poles.filter fun p => jsAbsLt p.im 1e-10).map fun p =>
    StageBody.firstOrder (AnimatedParameter.create (-p.sigma) 0.2)
  { stages := second ++ first
    globalGainDb := if n % 2 = 0 then -Ap else 0 }

end ChebyshevSolver

/-- JavaScript number results of the computations in getMinOrder: NaN, the
two infinities, or a finite real. -/
inductive JsVal where
  | nan
  | inf
  | ninf
  | fin (x : ℝ)

namespace JsVal

/-- Math.sqrt on a finite argument: NaN when negative. -/
def jsSqrt (x : ℝ) : JsVal :=
  if x < 0 then nan else fin (Real.sqrt x)

/-- JS division.  NaN propagates; Infinity/Infinity is NaN; Infinity over a
finite value keeps or flips sign; a finite value over an infinity is 0; a
nonzero finite value over 0 is a signed infinity (the +0 case of JS signed
zeros) and 0/0 is NaN. -/
def jsDiv : JsVal → JsVal → JsVal
  | nan, _ => nan
  | _, nan => nan
  | inf, inf => nan
  | inf, ninf => nan
  | ninf, inf => nan
  | ninf, ninf => nan
  | inf, fin d => if d < 0 then ninf else inf
  | ninf, fin d => if d < 0 then inf else ninf
  | fin _, inf => fin 0
  | fin _, ninf => fin 0
  | fin a, fin d =>
      if d = 0 then (if a = 0 then nan else if 0 < a then inf else ninf)
      else fin (a / d)

/-- Math.acosh: NaN below 1 (and at -Infinity), Infinity at Infinity. -/
def jsAcosh : JsVal → JsVal
  | nan => nan
  | inf => inf
  | ninf => nan
  | fin x => if x < 1 then nan else fin (arcosh x)

/-- Math.ceil, the identity on NaN and the infinities. -/
def jsCeil : JsVal → JsVal
  | fin x => fin ((⌈x⌉ : ℤ) : ℝ)
  | v => v

end JsVal

namespace ChebyshevSolver

open JsVal

/-- ChebyshevSolver.getMinOrder under JavaScript number semantics, keeping
track of where NaN and Infinity arise: Math.pow(10, x) on a finite x is
finite and positive, so epsilon is the only Math.sqrt result that can be
NaN, and the two Math.acosh calls and the divisions follow jsAcosh and
jsDiv.  The source performs no validation and throws nothing. -/
def getMinOrderJs (wp ws Ap As : ℝ) : JsVal :=
  let epsilon := jsSqrt ((10 : ℝ) ^ (Ap / 10) - 1)
  let A := (10 : ℝ) ^ (As / 20)
  let ratio := jsDiv (fin ws) (fin wp)
  jsCeil (jsDiv (jsAcosh (jsDiv (jsSqrt (A * A - 1)) epsilon)) (jsAcosh ratio))

end ChebyshevSolver

/-- A concrete oscillator state: value 3 inside bounds [0, 10], not
animating. -/
def paramAt3 : AnimatedParameter :=
  { value := 3, min := 0, max := 10, isAnimating := false, phase := 0 }

/-- A concrete animating oscillator at phase 0 with bounds [0, 1]. -/
def oscAtZero : AnimatedParameter :=
  { value := 0, min := 0, max := 1, isAnimating := true, phase := 0 }

/-- A concrete first-order stage body, FirstOrderLowPass(1.0). -/
def demoStage : StageBody :=
  StageBody.firstOrder (AnimatedParameter.create 1 0.2)

end

/-! Theorems. -/

/-- Folding the cascade product over stages that are all inactive leaves
the accumulator untouched. -/
theorem foldl_inactive (l : List Stage) (omega : ℝ) (acc : Cplx)
    (h : ∀ s ∈ l, s.active = false) :
    l.foldl (fun acc s => if s.active then cmul acc (s.body.getResponse omega) else acc)
      acc = acc := by
  induction l generalizing acc with
  | nil => rfl
  | cons hd tl ih =>
    have hhd : hd.active = false := h hd (by simp)
    simp only [List.foldl_cons, hhd, Bool.false_eq_true, if_false]
    exact ih acc fun s hs => h s (List.mem_cons_of_mem _ hs)

/-- C10: removeStage removes every stage with the given identity (all
duplicates), keeps the surviving stages in their original relative order
(the result is the filtered list, a sublist of the original), keeps every
stage with a different identity, and leaves globalGainDb and
animationSpeed unchanged. -/
theorem c10_remove_stage (c : FilterCascade) (sid : ℤ) :
    (c.removeStage sid).stages = c.stages.filter (fun s => s.id != sid) ∧
    (∀ s ∈ (c.removeStage sid).stages, s.id ≠ sid) ∧
    (c.removeStage sid).stages.Sublist c.stages ∧
    (∀ s ∈ c.stages, s.id ≠ sid → s ∈ (c.removeStage sid).stages) ∧
    (c.removeStage sid).globalGainDb = c.globalGainDb ∧
    (c.removeStage sid).animationSpeed = c.animationSpeed := by
  refine ⟨rfl, ?_, ?_, ?_, rfl, rfl⟩
  · intro s hs
    have hmem := List.mem_filter.mp hs
    simpa using hmem.2
  · exact List.filter_sublist _
  · intro s hs hne
    exact List.mem_filter.mpr ⟨hs, by simpa using hne⟩

/-- C9: a cascade all of whose stages are inactive responds with
(10^(globalGainDb/20), 0) at every frequency, and a freshly constructed or
freshly cleared cascade (empty stage list, zero gain) responds with exactly
(1, 0). -/
theorem c9_identity_response (c c2 : FilterCascade) (omega : ℝ)
    (hall : ∀ s ∈ c.stages, s.active = false) :
    c.getResponse omega = Cplx.mk ((10 : ℝ) ^ (c.globalGainDb / 20)) 0 ∧
    FilterCascade.empty.getResponse omega = Cplx.mk 1 0 ∧
    c2.clearStages.getResponse omega = Cplx.mk 1 0 := by
  have hfold := foldl_inactive c.stages omega (Cplx.mk 1 0) hall
  have hzero : ((10 : ℝ) ^ ((0 : ℝ) / 20)) = 1 := by
    norm_num
  refine ⟨?_, ?_, ?_⟩
  · simp only [FilterCascade.getResponse, hfold, one_mul, zero_mul]
  · simp only [FilterCascade.getResponse, FilterCascade.empty, List.foldl_nil, one_mul,
      zero_mul]
    rw [show ((0.0 : ℝ) / 20) = ((0 : ℝ) / 20) by norm_num, hzero]
  · simp only [FilterCascade.getResponse, FilterCascade.clearStages, List.foldl_nil, one_mul,
      zero_mul]
    rw [show ((0.0 : ℝ) / 20) = ((0 : ℝ) / 20) by norm_num, hzero]

/-- Witness for C9 at the freshly constructed cascade and ω = 0. -/
theorem c9_identity_response_witness :
    (∀ s ∈ FilterCascade.empty.stages, s.active = false) ∧
    (FilterCascade.empty.getResponse 0 =
      Cplx.mk ((10 : ℝ) ^ (FilterCascade.empty.globalGainDb / 20)) 0 ∧
    FilterCascade.empty.getResponse 0 = Cplx.mk 1 0 ∧
    FilterCascade.empty.clearStages.getResponse 0 = Cplx.mk 1 0) :=
  ⟨fun s hs => by simp [FilterCascade.empty] at hs,
   c9_identity_response FilterCascade.empty FilterCascade.empty 0
     (fun s hs => by simp [FilterCascade.empty] at hs)⟩

/-- C6 counterexample: setRange(5, 2) on an oscillator with value 3 and
bounds [0, 10] has max < min, yet no InvalidRange failure occurs and the
bounds are updated to min = 5, max = 2 (value ends at 2). -/
theorem c6_counterexample :
    (2 : ℝ) < 5 ∧
    (paramAt3.setRange 5 2).min = 5 ∧
    (paramAt3.setRange 5 2).max = 2 ∧
    (paramAt3.setRange 5 2).value = 2 := by
  have h1 : Max.max (0 : ℝ) 5 = 5 := by norm_num
  refine ⟨by norm_num, ?_, rfl, ?_⟩
  · simp only [AnimatedParameter.setRange, paramAt3]
    rw [h1]
  · simp only [AnimatedParameter.setRange, paramAt3]
    rw [h1, if_pos (by norm_num : (3 : ℝ) < 5), if_pos (by norm_num : (5 : ℝ) > 2)]

/-- C1: at the specification wp=1, ws=3, Ap=3, As=30 the decomposition
returns an empty stage list: the pole records carry the fields sigma and
omega, but both pairing guards read the absent field p.im, so no pole ever
passes either guard.  This contradicts the stated behaviour (one
second-order and one first-order stage). -/
theorem c1_decompose_empty_stages :
    (ChebyshevSolver.getBestSolutionStages 1 3 3 30).stages = [] := by
  simp [ChebyshevSolver.getBestSolutionStages, ChebyshevSolver.jsGtZero,
    ChebyshevSolver.jsAbsLt, ChebyshevSolver.ChebyPole.im]

/-- C3: for a feasible specification the decomposition's compensation gain
is -Ap when the computed minimum order is even and 0 when it is odd. -/
theorem c3_gain_parity (wp ws Ap As : ℝ) (hwp : 0 < wp) (hws : wp < ws)
    (hAp : 0 < Ap) (hAs : Ap < As) :
    (ChebyshevSolver.getBestSolutionStages wp ws Ap As).globalGainDb =
      (if ChebyshevSolver.getMinOrder wp ws Ap As % 2 = 0 then -Ap else 0) := rfl

/-- The dB value of the floor threshold: log10 of 1e-10 is -10. -/
theorem logb_ten_floor : Real.logb 10 (1e-10 : ℝ) = -10 := by
  have h : (1e-10 : ℝ) = ((10 : ℝ) ^ (10 : ℕ))⁻¹ := by norm_num
  have h10 : Real.log 10 ≠ 0 :=
    (Real.log_pos (by norm_num : (1 : ℝ) < 10)).ne'
  rw [h, Real.logb, Real.log_inv, Real.log_pow]
  field_simp

/-- The shared floor computation of getMagnitudeDb never goes below
-200 dB, and both of its branches behave as specified. -/
theorem db_floor_facts (mag : ℝ) :
    -200 ≤ (if mag > 1e-10 then 20 * Real.logb 10 mag else -200) ∧
    (mag ≤ 1e-10 → (if mag > 1e-10 then 20 * Real.logb 10 mag else -200) = -200) ∧
    (1e-10 < mag →
      (if mag > 1e-10 then 20 * Real.logb 10 mag else -200) = 20 * Real.logb 10 mag) := by
  refine ⟨?_, ?_, ?_⟩
  · split
    · next hgt =>
      have hlt := Real.logb_lt_logb (by norm_num : (1 : ℝ) < 10)
        (by norm_num : (0 : ℝ) < 1e-10) hgt
      rw [logb_ten_floor] at hlt
      linarith
    · exact le_refl _
  · intro hle
    exact if_neg (not_lt.mpr hle)
  · intro hgt
    exact if_pos hgt

/-- C5: for every stage variant and every cascade, at every ω ≥ 0 the
magnitude is nonnegative and the dB magnitude is at least -200; the dB
value is exactly -200 whenever the magnitude is at most 1e-10, and equals
20·log10(magnitude) otherwise. -/
theorem c5_magnitude_db_floor (b : StageBody) (c : FilterCascade) (omega : ℝ)
    (homega : 0 ≤ omega) :
    (0 ≤ b.getMagnitude omega ∧ -200 ≤ b.getMagnitudeDb omega ∧
      (b.getMagnitude omega ≤ 1e-10 → b.getMagnitudeDb omega = -200) ∧
      (1e-10 < b.getMagnitude omega →
        b.getMagnitudeDb omega = 20 * Real.logb 10 (b.getMagnitude omega))) ∧
    (0 ≤ c.getMagnitude omega ∧ -200 ≤ c.getMagnitudeDb omega ∧
      (c.getMagnitude omega ≤ 1e-10 → c.getMagnitudeDb omega = -200) ∧
      (1e-10 < c.getMagnitude omega →
        c.getMagnitudeDb omega = 20 * Real.logb 10 (c.getMagnitude omega))) := by
  obtain ⟨hb1, hb2, hb3⟩ := db_floor_facts (b.getMagnitude omega)
  obtain ⟨hc1, hc2, hc3⟩ := db_floor_facts (c.getMagnitude omega)
  exact ⟨⟨Real.sqrt_nonneg _, hb1, hb2, hb3⟩, ⟨Real.sqrt_nonneg _, hc1, hc2, hc3⟩⟩

/-- Witness for C5 at FirstOrderLowPass(1.0), the fresh cascade and ω = 0. -/
theorem c5_magnitude_db_floor_witness :
    (0 : ℝ) ≤ 0 ∧
    ((0 ≤ demoStage.getMagnitude 0 ∧ -200 ≤ demoStage.getMagnitudeDb 0 ∧
      (demoStage.getMagnitude 0 ≤ 1e-10 → demoStage.getMagnitudeDb 0 = -200) ∧
      (1e-10 < demoStage.getMagnitude 0 →
        demoStage.getMagnitudeDb 0 = 20 * Real.logb 10 (demoStage.getMagnitude 0))) ∧
    (0 ≤ FilterCascade.empty.getMagnitude 0 ∧
      -200 ≤ FilterCascade.empty.getMagnitudeDb 0 ∧
      (FilterCascade.empty.getMagnitude 0 ≤ 1e-10 →
        FilterCascade.empty.getMagnitudeDb 0 = -200) ∧
      (1e-10 < FilterCascade.empty.getMagnitude 0 →
        FilterCascade.empty.getMagnitudeDb 0 =
          20 * Real.logb 10 (FilterCascade.empty.getMagnitude 0)))) :=
  ⟨le_refl 0, c5_magnitude_db_floor demoStage FilterCascade.empty 0 (le_refl 0)⟩

/-- C4 counterexample: at f0 = 1, Q = 1/2 (so Q ≥ 0.5 as the claim
requires) the discriminant is 0, not negative, and getPoles returns the
real double pole -1 twice rather than a complex-conjugate pair: both
imaginary parts are 0. -/
theorem c4_counterexample :
    (1 / 2 : ℝ) ≤ 1 / 2 ∧
    soDiscriminant 1 (1 / 2) = 0 ∧
    ¬ soDiscriminant 1 (1 / 2) < 0 ∧
    (StageBody.secondOrder (AnimatedParameter.create 1 0.2)
        (AnimatedParameter.create (1 / 2) 0.2)).getPoles =
      [Cplx.mk (-1) 0, Cplx.mk (-1) 0] := by
  have hD : soDiscriminant 1 (1 / 2) = 0 := by
    norm_num [soDiscriminant]
  refine ⟨le_refl _, hD, by rw [hD]; exact lt_irrefl 0, ?_⟩
  simp only [StageBody.getPoles, AnimatedParameter.create]
  rw [if_pos (by rw [hD] : soDiscriminant 1 (1 / 2) ≥ 0)]
  rw [hD, Real.sqrt_zero]
  norm_num

/-- C4 amended: for every second-order stage with f0 > 0 and Q > 0 all
poles have strictly negative real part; for Q strictly above 0.5 the
discriminant is negative and the poles are a complex-conjugate pair with
nonzero imaginary part; for Q below 0.5 the discriminant is positive and
the poles are real and distinct; at exactly Q = 0.5 the discriminant is 0
and getPoles returns the real pole -f0 twice. -/
theorem c4_amended (fp Qp : AnimatedParameter) (hf : 0 < fp.value) (hQ : 0 < Qp.value) :
    (∀ p ∈ (StageBody.secondOrder fp Qp).getPoles, p.re < 0) ∧
    (1 / 2 < Qp.value → soDiscriminant fp.value Qp.value < 0 ∧
      ∃ a b : ℝ, 0 < b ∧ (StageBody.secondOrder fp Qp).getPoles =
        [Cplx.mk a b, Cplx.mk a (-b)]) ∧
    (Qp.value < 1 / 2 → 0 < soDiscriminant fp.value Qp.value ∧
      ∃ a b : ℝ, a ≠ b ∧ (StageBody.secondOrder fp Qp).getPoles =
        [Cplx.mk a 0, Cplx.mk b 0]) ∧
    (Qp.value = 1 / 2 → (StageBody.secondOrder fp Qp).getPoles =
      [Cplx.mk (-fp.value) 0, Cplx.mk (-fp.value) 0]) := by
  set f := fp.value with hfdef
  set Q := Qp.value with hQdef
  have hQne : Q ≠ 0 := hQ.ne'
  have halpha : 0 < f / (2 * Q) := div_pos hf (by positivity)
  have hDeq : soDiscriminant f Q = (f / (2 * Q)) ^ 2 - f ^ 2 := by
    field_simp [soDiscriminant]
    ring
  refine ⟨?_, ?_, ?_, ?_⟩
  · intro p hp
    by_cases hD : soDiscriminant f Q ≥ 0
    · have hlt : Real.sqrt (soDiscriminant f Q) < f / (2 * Q) := by
        rw [Real.sqrt_lt' halpha, hDeq]
        nlinarith [pow_pos hf 2]
      have hnn := Real.sqrt_nonneg (soDiscriminant f Q)
      simp only [StageBody.getPoles, if_pos hD, List.mem_cons, List.mem_singleton,
        List.not_mem_nil, or_false] at hp
      rcases hp with h | h <;> subst h <;> simp only <;> linarith
    · simp only [StageBody.getPoles, if_neg hD, List.mem_cons, List.mem_singleton,
        List.not_mem_nil, or_false] at hp
      rcases hp with h | h <;> subst h <;> simp only <;> linarith
  · intro hQhalf
    have hD : soDiscriminant f Q < 0 := by
      have h4 : 1 < 4 * (Q * Q) := by nlinarith
      have hf2 : 0 < f * f := mul_pos hf hf
      have hdiv := div_lt_self hf2 h4
      simp only [soDiscriminant]
      rw [mul_assoc]
      linarith
    refine ⟨hD, -(f / (2 * Q)), Real.sqrt (-soDiscriminant f Q), ?_, ?_⟩
    · exact Real.sqrt_pos.mpr (by linarith)
    · simp only [StageBody.getPoles, if_neg (not_le.mpr hD)]
  · intro hQhalf
    have hD : 0 < soDiscriminant f Q := by
      have h4 : 4 * (Q * Q) < 1 := by nlinarith
      have h41 : (0 : ℝ) < 4 * (Q * Q) := by positivity
      have hf2 : 0 < f * f := mul_pos hf hf
      have hlt : f * f < f * f / (4 * (Q * Q)) :=
        (lt_div_iff h41).mpr (by nlinarith)
      simp only [soDiscriminant]
      rw [mul_assoc]
      linarith
    have hs : 0 < Real.sqrt (soDiscriminant f Q) := Real.sqrt_pos.mpr hD
    refine ⟨hD, -(f / (2 * Q)) + Real.sqrt (soDiscriminant f Q),
      -(f / (2 * Q)) - Real.sqrt (soDiscriminant f Q), by linarith, ?_⟩
    simp only [StageBody.getPoles, if_pos (le_of_lt hD : (0:ℝ) ≤ soDiscriminant f Q)]
  · intro hQhalf
    have hD : soDiscriminant f Q = 0 := by
      rw [hDeq, hQhalf]
      field_simp
    have half : f / (2 * Q) = f := by
      rw [hQhalf]
      norm_num
    simp only [StageBody.getPoles, if_pos (by rw [hD] : soDiscriminant f Q ≥ 0), hD,
      Real.sqrt_zero, half]
    norm_num

/-- Witness for C4 amended at f0 = 1, Q = 1. -/
theorem c4_amended_witness :
    0 < (AnimatedParameter.create 1 0.2).value ∧
    ((∀ p ∈ (StageBody.secondOrder (AnimatedParameter.create 1 0.2)
        (AnimatedParameter.create 1 0.2)).getPoles, p.re < 0) ∧
    (1 / 2 < (AnimatedParameter.create 1 0.2).value →
      soDiscriminant (AnimatedParameter.create 1 0.2).value
        (AnimatedParameter.create 1 0.2).value < 0 ∧
      ∃ a b : ℝ, 0 < b ∧ (StageBody.secondOrder (AnimatedParameter.create 1 0.2)
        (AnimatedParameter.create 1 0.2)).getPoles = [Cplx.mk a b, Cplx.mk a (-b)]) ∧
    ((AnimatedParameter.create 1 0.2).value < 1 / 2 →
      0 < soDiscriminant (AnimatedParameter.create 1 0.2).value
        (AnimatedParameter.create 1 0.2).value ∧
      ∃ a b : ℝ, a ≠ b ∧ (StageBody.secondOrder (AnimatedParameter.create 1 0.2)
        (AnimatedParameter.create 1 0.2)).getPoles = [Cplx.mk a 0, Cplx.mk b 0]) ∧
    ((AnimatedParameter.create 1 0.2).value = 1 / 2 →
      (StageBody.secondOrder (AnimatedParameter.create 1 0.2)
        (AnimatedParameter.create 1 0.2)).getPoles =
        [Cplx.mk (-(AnimatedParameter.create 1 0.2).value) 0,
         Cplx.mk (-(AnimatedParameter.create 1 0.2).value) 0])) :=
  ⟨by norm_num [AnimatedParameter.create],
   c4_amended (AnimatedParameter.create 1 0.2) (AnimatedParameter.create 1 0.2)
     (by norm_num [AnimatedParameter.create]) (by norm_num [AnimatedParameter.create])⟩

/-- C6 amended: setRange never signals InvalidRange: for every requested
pair of bounds it records max(0, min) and the requested max as the new
bounds, even when max < min or min < 0; when 0 ≤ min ≤ max it records the
bounds exactly as given and clamps value into [min, max]. -/
theorem c6_amended (p : AnimatedParameter) (lo hi lo2 hi2 : ℝ)
    (h0 : 0 ≤ lo) (h1 : lo ≤ hi) :
    (p.setRange lo hi).min = lo ∧
    (p.setRange lo hi).max = hi ∧
    lo ≤ (p.setRange lo hi).value ∧
    (p.setRange lo hi).value ≤ hi ∧
    (p.setRange lo2 hi2).min = Max.max 0 lo2 ∧
    (p.setRange lo2 hi2).max = hi2 := by
  have hmax : Max.max 0 lo = lo := max_eq_right h0
  have hv : (p.setRange lo hi).value =
      (if (if p.value < lo then lo else p.value) > hi then hi
       else (if p.value < lo then lo else p.value)) := by
    show (if (if p.value < Max.max 0 lo then Max.max 0 lo else p.value) > hi then hi
       else (if p.value < Max.max 0 lo then Max.max 0 lo else p.value)) = _
    rw [hmax]
  refine ⟨?_, rfl, ?_, ?_, rfl, rfl⟩
  · show Max.max 0 lo = lo
    exact hmax
  · rw [hv]
    by_cases hin : p.value < lo
    · rw [if_pos hin]
      by_cases hout : lo > hi
      · rw [if_pos hout]
        exact h1
      · rw [if_neg hout]
    · rw [if_neg hin]
      by_cases hout : p.value > hi
      · rw [if_pos hout]
        exact h1
      · rw [if_neg hout]
        exact le_of_not_lt hin
  · rw [hv]
    by_cases hin : p.value < lo
    · rw [if_pos hin]
      by_cases hout : lo > hi
      · rw [if_pos hout]
      · rw [if_neg hout]
        exact le_of_not_lt hout
    · rw [if_neg hin]
      by_cases hout : p.value > hi
      · rw [if_pos hout]
      · rw [if_neg hout]
        exact le_of_not_lt hout

/-- Witness for C6 amended at the oscillator with value 3 and requested
bounds [1, 4] (valid) and [5, 2] (inverted). -/
theorem c6_amended_witness :
    (0 : ℝ) ≤ 1 ∧ (1 : ℝ) ≤ 4 ∧
    ((paramAt3.setRange 1 4).min = 1 ∧
     (paramAt3.setRange 1 4).max = 4 ∧
     1 ≤ (paramAt3.setRange 1 4).value ∧
     (paramAt3.setRange 1 4).value ≤ 4 ∧
     (paramAt3.setRange 5 2).min = Max.max 0 5 ∧
     (paramAt3.setRange 5 2).max = 2) :=
  ⟨by norm_num, by norm_num,
   c6_amended paramAt3 1 4 5 2 (by norm_num) (by norm_num)⟩

/-- C8 counterexample: an animating oscillator at phase 0 advanced with
deltaTime = 1, speed = 1 gains exactly 2π of phase; the wrap condition is
the strict comparison phase > 2π, so the post-state phase is exactly 2π,
which is not inside [0, 2π). -/
theorem c8_counterexample :
    oscAtZero.isAnimating = true ∧ oscAtZero.phase = 0 ∧
    (oscAtZero.update 1 1).phase = 2 * π ∧
    ¬ (oscAtZero.update 1 1).phase < 2 * π := by
  have harg : (0 : ℝ) + 1 * 1 * 2 * π = 2 * π := by ring
  have hupd : (oscAtZero.update 1 1).phase =
      (if (0 : ℝ) + 1 * 1 * 2 * π > 2 * π then (0 : ℝ) + 1 * 1 * 2 * π - 2 * π
       else (0 : ℝ) + 1 * 1 * 2 * π) := rfl
  have h1 : (oscAtZero.update 1 1).phase =
      (if 2 * π > 2 * π then 2 * π - 2 * π else 2 * π) := by
    rw [hupd]
    simp only [harg]
  have hph : (oscAtZero.update 1 1).phase = 2 * π := by
    rw [h1, if_neg (lt_irrefl (2 * π))]
  exact ⟨rfl, rfl, hph, by rw [hph]; exact lt_irrefl (2 * π)⟩

/-- C8 amended: for an animating oscillator with phase in [0, 2π),
deltaTime ≥ 0 and speed > 0, one update adds deltaTime·speed·2π to the
phase and subtracts 2π once when the sum strictly exceeds 2π, and sets
value = min + ((sin(phase)+1)/2)·(max-min) from the new phase; when
deltaTime·speed ≤ 1 the post-state phase lies in the closed interval
[0, 2π] (it reaches 2π exactly when the sum lands there, and a single
subtraction cannot wrap larger steps). -/
theorem c8_amended (p : AnimatedParameter) (dt sp : ℝ)
    (hanim : p.isAnimating = true) (hph0 : 0 ≤ p.phase) (hph2 : p.phase < 2 * π)
    (hdt : 0 ≤ dt) (hsp : 0 < sp) (hstep : dt * sp ≤ 1) :
    (p.update dt sp).phase =
      (if p.phase + dt * sp * 2 * π > 2 * π then p.phase + dt * sp * 2 * π - 2 * π
       else p.phase + dt * sp * 2 * π) ∧
    (p.update dt sp).value =
      p.min + ((Real.sin ((p.update dt sp).phase) + 1) / 2) * (p.max - p.min) ∧
    0 ≤ (p.update dt sp).phase ∧ (p.update dt sp).phase ≤ 2 * π := by
  have hpi := Real.pi_pos
  have hds : 0 ≤ dt * sp := mul_nonneg hdt hsp.le
  have hincr0 : 0 ≤ dt * sp * 2 * π := by nlinarith
  have hincr2 : dt * sp * 2 * π ≤ 2 * π := by nlinarith
  have hph : (p.update dt sp).phase =
      (if p.phase + dt * sp * 2 * π > 2 * π then p.phase + dt * sp * 2 * π - 2 * π
       else p.phase + dt * sp * 2 * π) := by
    simp only [AnimatedParameter.update, hanim, if_true]
  have hval : (p.update dt sp).value =
      p.min + ((Real.sin ((p.update dt sp).phase) + 1) / 2) * (p.max - p.min) := by
    simp only [AnimatedParameter.update, hanim, if_true]
  refine ⟨hph, hval, ?_, ?_⟩
  · rw [hph]
    split
    · next hgt => linarith
    · linarith
  · rw [hph]
    split
    · linarith
    · next hle => linarith [le_of_not_lt hle]

/-- Witness for C8 amended: the animating oscillator at phase 0 advanced
with deltaTime = 1/4, speed = 1. -/
theorem c8_amended_witness :
    oscAtZero.isAnimating = true ∧ 0 ≤ oscAtZero.phase ∧ oscAtZero.phase < 2 * π ∧
    (0 : ℝ) ≤ 1 / 4 ∧ (0 : ℝ) < 1 ∧ (1 / 4 : ℝ) * 1 ≤ 1 ∧
    ((oscAtZero.update (1 / 4) 1).phase =
      (if oscAtZero.phase + (1 / 4) * 1 * 2 * π > 2 * π then
        oscAtZero.phase + (1 / 4) * 1 * 2 * π - 2 * π
       else oscAtZero.phase + (1 / 4) * 1 * 2 * π) ∧
    (oscAtZero.update (1 / 4) 1).value =
      oscAtZero.min + ((Real.sin ((oscAtZero.update (1 / 4) 1).phase) + 1) / 2) *
        (oscAtZero.max - oscAtZero.min) ∧
    0 ≤ (oscAtZero.update (1 / 4) 1).phase ∧
    (oscAtZero.update (1 / 4) 1).phase ≤ 2 * π) :=
  ⟨rfl, le_refl 0, by simp only [oscAtZero]; positivity, by norm_num, by norm_num,
   by norm_num,
   c8_amended oscAtZero (1 / 4) 1 rfl (le_refl 0)
     (by simp only [oscAtZero]; positivity) (by norm_num) (by norm_num) (by norm_num)⟩

/-- arcosh is nonnegative from 1 on. -/
theorem arcosh_nonneg {x : ℝ} (hx : 1 ≤ x) : 0 ≤ arcosh x :=
  Real.log_nonneg (le_add_of_le_of_nonneg hx (Real.sqrt_nonneg _))

/-- arcosh is positive past 1. -/
theorem arcosh_pos {x : ℝ} (hx : 1 < x) : 0 < arcosh x :=
  Real.log_pos (lt_add_of_lt_of_nonneg hx (Real.sqrt_nonneg _))

/-- arcosh is monotone on the domain of Math.acosh. -/
theorem arcosh_mono {x y : ℝ} (hx : 1 ≤ x) (hxy : x ≤ y) : arcosh x ≤ arcosh y := by
  unfold arcosh
  have hx0 : (0 : ℝ) < x + Real.sqrt (x * x - 1) :=
    lt_of_lt_of_le one_pos (le_add_of_le_of_nonneg hx (Real.sqrt_nonneg _))
  exact Real.log_le_log hx0
    (add_le_add hxy (Real.sqrt_le_sqrt (by nlinarith)))

/-- For 0 < Ap ≤ As, the acosh argument sqrt(A²-1)/ε of getMinOrder is at
least 1. -/
theorem cheb_arg_ge_one {Ap As : ℝ} (hAp : 0 < Ap) (hAs : Ap ≤ As) :
    1 ≤ Real.sqrt ((10 : ℝ) ^ (As / 20) * (10 : ℝ) ^ (As / 20) - 1) /
      Real.sqrt ((10 : ℝ) ^ (Ap / 10) - 1) := by
  have hA2 : (10 : ℝ) ^ (As / 20) * (10 : ℝ) ^ (As / 20) = (10 : ℝ) ^ (As / 10) := by
    rw [← Real.rpow_add (by norm_num : (0 : ℝ) < 10)]
    congr 1
    ring
  have heps : (0 : ℝ) < (10 : ℝ) ^ (Ap / 10) - 1 :=
    sub_pos.mpr (Real.one_lt_rpow (by norm_num) (by positivity))
  have hmono : (10 : ℝ) ^ (Ap / 10) ≤ (10 : ℝ) ^ (As / 10) :=
    Real.rpow_le_rpow_of_exponent_le (by norm_num) (by linarith)
  rw [hA2, one_le_div (Real.sqrt_pos.mpr heps)]
  exact Real.sqrt_le_sqrt (by linarith)

/-- JS division with a NaN numerator is NaN. -/
theorem jsDiv_nan_left (x : JsVal) : JsVal.jsDiv JsVal.nan x = JsVal.nan := by
  cases x <;> rfl

/-- JS division with a NaN denominator is NaN. -/
theorem jsDiv_nan_right (x : JsVal) : JsVal.jsDiv x JsVal.nan = JsVal.nan := by
  cases x <;> rfl

/-- C2 counterexample: at wp = 1, ws = 2, Ap = 3, As = 0 the specification
is infeasible (sqrt(A²-1)/ε = 0 < 1), yet getMinOrder performs no
validation and silently returns NaN (Math.acosh of an argument below 1)
instead of failing with an InfeasibleSpecification error — the source has
no error path at all. -/
theorem c2_counterexample :
    ChebyshevSolver.getMinOrderJs 1 2 3 0 = JsVal.nan := by
  have hA : (10 : ℝ) ^ ((0 : ℝ) / 20) = 1 := by
    rw [show ((0 : ℝ) / 20) = 0 by norm_num, Real.rpow_zero]
  have hApos : (0 : ℝ) < (10 : ℝ) ^ ((3 : ℝ) / 10) - 1 :=
    sub_pos.mpr (Real.one_lt_rpow (by norm_num) (by positivity))
  have hspos : 0 < Real.sqrt ((10 : ℝ) ^ ((3 : ℝ) / 10) - 1) := Real.sqrt_pos.mpr hApos
  have e1 : JsVal.jsSqrt ((10 : ℝ) ^ ((0 : ℝ) / 20) * (10 : ℝ) ^ ((0 : ℝ) / 20) - 1) =
      JsVal.fin 0 := by
    rw [hA]
    norm_num [JsVal.jsSqrt]
  have e2 : JsVal.jsSqrt ((10 : ℝ) ^ ((3 : ℝ) / 10) - 1) =
      JsVal.fin (Real.sqrt ((10 : ℝ) ^ ((3 : ℝ) / 10) - 1)) := by
    simp only [JsVal.jsSqrt]
    rw [if_neg (not_lt.mpr hApos.le)]
  have e3 : JsVal.jsDiv (JsVal.fin 0)
      (JsVal.fin (Real.sqrt ((10 : ℝ) ^ ((3 : ℝ) / 10) - 1))) = JsVal.fin 0 := by
    simp only [JsVal.jsDiv]
    rw [if_neg hspos.ne', zero_div]
  have e4 : JsVal.jsAcosh (JsVal.fin 0) = JsVal.nan := by
    simp only [JsVal.jsAcosh]
    rw [if_pos (by norm_num : (0 : ℝ) < 1)]
  show JsVal.jsCeil (JsVal.jsDiv (JsVal.jsAcosh (JsVal.jsDiv
      (JsVal.jsSqrt ((10 : ℝ) ^ ((0 : ℝ) / 20) * (10 : ℝ) ^ ((0 : ℝ) / 20) - 1))
      (JsVal.jsSqrt ((10 : ℝ) ^ ((3 : ℝ) / 10) - 1))))
      (JsVal.jsAcosh (JsVal.jsDiv (JsVal.fin 2) (JsVal.fin 1)))) = JsVal.nan
  rw [e1, e2, e3, e4, jsDiv_nan_left]
  rfl

/-- C2 amended: for an infeasible specification the computation does not
fail with an explicit InfeasibleSpecification error — no validation or
error path exists — and instead silently returns the NaN produced by the
out-of-domain Math.acosh: whenever ws < wp (with wp > 0), or Ap < 0, or
Ap > 0 with A² ≥ 1 and sqrt(A²-1) < ε (the acosh argument below 1), the
result is NaN. -/
theorem c2_amended (wp ws Ap As : ℝ)
    (h : (0 < wp ∧ ws < wp) ∨ Ap < 0 ∨
        (0 < Ap ∧ 1 ≤ (10 : ℝ) ^ (As / 20) * (10 : ℝ) ^ (As / 20) ∧
          Real.sqrt ((10 : ℝ) ^ (As / 20) * (10 : ℝ) ^ (As / 20) - 1) <
            Real.sqrt ((10 : ℝ) ^ (Ap / 10) - 1))) :
    ChebyshevSolver.getMinOrderJs wp ws Ap As = JsVal.nan := by
  show JsVal.jsCeil (JsVal.jsDiv (JsVal.jsAcosh (JsVal.jsDiv
      (JsVal.jsSqrt ((10 : ℝ) ^ (As / 20) * (10 : ℝ) ^ (As / 20) - 1))
      (JsVal.jsSqrt ((10 : ℝ) ^ (Ap / 10) - 1))))
      (JsVal.jsAcosh (JsVal.jsDiv (JsVal.fin ws) (JsVal.fin wp)))) = JsVal.nan
  rcases h with ⟨hwp, hws⟩ | hAp | ⟨hAp, hA2, harg⟩
  · have er : JsVal.jsDiv (JsVal.fin ws) (JsVal.fin wp) = JsVal.fin (ws / wp) := by
      simp only [JsVal.jsDiv]
      rw [if_neg hwp.ne']
    have eac : JsVal.jsAcosh (JsVal.fin (ws / wp)) = JsVal.nan := by
      simp only [JsVal.jsAcosh]
      rw [if_pos ((div_lt_one hwp).mpr hws)]
    rw [er, eac, jsDiv_nan_right]
    rfl
  · have heps : (10 : ℝ) ^ (Ap / 10) - 1 < 0 := by
      have := Real.rpow_lt_one_of_one_lt_of_neg (x := (10 : ℝ)) (by norm_num)
        (show Ap / 10 < 0 by linarith)
      linarith
    have ee : JsVal.jsSqrt ((10 : ℝ) ^ (Ap / 10) - 1) = JsVal.nan := by
      simp only [JsVal.jsSqrt]
      rw [if_pos heps]
    rw [ee, jsDiv_nan_right, show JsVal.jsAcosh JsVal.nan = JsVal.nan from rfl,
      jsDiv_nan_left]
    rfl
  · have heps : (0 : ℝ) < (10 : ℝ) ^ (Ap / 10) - 1 :=
      sub_pos.mpr (Real.one_lt_rpow (by norm_num) (by positivity))
    have hspos : 0 < Real.sqrt ((10 : ℝ) ^ (Ap / 10) - 1) := Real.sqrt_pos.mpr heps
    have et : JsVal.jsSqrt ((10 : ℝ) ^ (As / 20) * (10 : ℝ) ^ (As / 20) - 1) =
        JsVal.fin (Real.sqrt ((10 : ℝ) ^ (As / 20) * (10 : ℝ) ^ (As / 20) - 1)) := by
      simp only [JsVal.jsSqrt]
      rw [if_neg (not_lt.mpr (by linarith))]
    have ee : JsVal.jsSqrt ((10 : ℝ) ^ (Ap / 10) - 1) =
        JsVal.fin (Real.sqrt ((10 : ℝ) ^ (Ap / 10) - 1)) := by
      simp only [JsVal.jsSqrt]
      rw [if_neg (not_lt.mpr heps.le)]
    have ed : JsVal.jsDiv
        (JsVal.fin (Real.sqrt ((10 : ℝ) ^ (As / 20) * (10 : ℝ) ^ (As / 20) - 1)))
        (JsVal.fin (Real.sqrt ((10 : ℝ) ^ (Ap / 10) - 1))) =
        JsVal.fin (Real.sqrt ((10 : ℝ) ^ (As / 20) * (10 : ℝ) ^ (As / 20) - 1) /
          Real.sqrt ((10 : ℝ) ^ (Ap / 10) - 1)) := by
      simp only [JsVal.jsDiv]
      rw [if_neg hspos.ne']
    have eac : JsVal.jsAcosh (JsVal.fin
        (Real.sqrt ((10 : ℝ) ^ (As / 20) * (10 : ℝ) ^ (As / 20) - 1) /
          Real.sqrt ((10 : ℝ) ^ (Ap / 10) - 1))) = JsVal.nan := by
      simp only [JsVal.jsAcosh]
      rw [if_pos ((div_lt_one hspos).mpr harg)]
    rw [et, ee, ed, eac, jsDiv_nan_left]
    rfl

/-- Witness for C2 amended at the infeasible specification wp = 1,
ws = 1/2 (stopband edge below the passband edge). -/
theorem c2_amended_witness :
    ((0 : ℝ) < 1 ∧ (1 / 2 : ℝ) < 1 ∧
      ChebyshevSolver.getMinOrderJs 1 (1 / 2) 3 30 = JsVal.nan) :=
  ⟨by norm_num, by norm_num,
   c2_amended 1 (1 / 2) 3 30 (Or.inl ⟨by norm_num, by norm_num⟩)⟩

/-- On feasible specifications the JavaScript-semantics evaluation of
getMinOrder produces exactly the finite value of the real-arithmetic
embedding: every Math call stays inside its domain and no NaN or Infinity
arises. -/
theorem getMinOrderJs_eq_fin (wp ws Ap As : ℝ)
    (hwp : 0 < wp) (hws : wp < ws) (hAp : 0 < Ap) (hAs : Ap ≤ As) :
    ChebyshevSolver.getMinOrderJs wp ws Ap As =
      JsVal.fin ((ChebyshevSolver.getMinOrder wp ws Ap As : ℤ) : ℝ) := by
  have heps : (0 : ℝ) < (10 : ℝ) ^ (Ap / 10) - 1 :=
    sub_pos.mpr (Real.one_lt_rpow (by norm_num) (by positivity))
  have hspos : 0 < Real.sqrt ((10 : ℝ) ^ (Ap / 10) - 1) := Real.sqrt_pos.mpr heps
  have harg : 1 ≤ Real.sqrt ((10 : ℝ) ^ (As / 20) * (10 : ℝ) ^ (As / 20) - 1) /
      Real.sqrt ((10 : ℝ) ^ (Ap / 10) - 1) := cheb_arg_ge_one hAp hAs
  have hA1 : (1 : ℝ) ≤ (10 : ℝ) ^ (As / 20) * (10 : ℝ) ^ (As / 20) := by
    have h1 : (1 : ℝ) ≤ (10 : ℝ) ^ (As / 20) :=
      Real.one_le_rpow (by norm_num) (div_nonneg (by linarith) (by norm_num))
    nlinarith
  have hr1 : 1 < ws / wp := (one_lt_div hwp).mpr hws
  have hd1 : 0 < arcosh (ws / wp) := arcosh_pos hr1
  have et : JsVal.jsSqrt ((10 : ℝ) ^ (As / 20) * (10 : ℝ) ^ (As / 20) - 1) =
      JsVal.fin (Real.sqrt ((10 : ℝ) ^ (As / 20) * (10 : ℝ) ^ (As / 20) - 1)) := by
    simp only [JsVal.jsSqrt]
    rw [if_neg (not_lt.mpr (by linarith))]
  have ee : JsVal.jsSqrt ((10 : ℝ) ^ (Ap / 10) - 1) =
      JsVal.fin (Real.sqrt ((10 : ℝ) ^ (Ap / 10) - 1)) := by
    simp only [JsVal.jsSqrt]
    rw [if_neg (not_lt.mpr heps.le)]
  show JsVal.jsCeil (JsVal.jsDiv (JsVal.jsAcosh (JsVal.jsDiv
      (JsVal.jsSqrt ((10 : ℝ) ^ (As / 20) * (10 : ℝ) ^ (As / 20) - 1))
      (JsVal.jsSqrt ((10 : ℝ) ^ (Ap / 10) - 1))))
      (JsVal.jsAcosh (JsVal.jsDiv (JsVal.fin ws) (JsVal.fin wp)))) = _
  rw [et, ee]
  have ed : JsVal.jsDiv
      (JsVal.fin (Real.sqrt ((10 : ℝ) ^ (As / 20) * (10 : ℝ) ^ (As / 20) - 1)))
      (JsVal.fin (Real.sqrt ((10 : ℝ) ^ (Ap / 10) - 1))) =
      JsVal.fin (Real.sqrt ((10 : ℝ) ^ (As / 20) * (10 : ℝ) ^ (As / 20) - 1) /
        Real.sqrt ((10 : ℝ) ^ (Ap / 10) - 1)) := by
    simp only [JsVal.jsDiv]
    rw [if_neg hspos.ne']
  rw [ed]
  have eac : JsVal.jsAcosh (JsVal.fin
      (Real.sqrt ((10 : ℝ) ^ (As / 20) * (10 : ℝ) ^ (As / 20) - 1) /
        Real.sqrt ((10 : ℝ) ^ (Ap / 10) - 1))) =
      JsVal.fin (arcosh (Real.sqrt ((10 : ℝ) ^ (As / 20) * (10 : ℝ) ^ (As / 20) - 1) /
        Real.sqrt ((10 : ℝ) ^ (Ap / 10) - 1))) := by
    simp only [JsVal.jsAcosh]
    rw [if_neg (not_lt.mpr harg)]
  rw [eac]
  have er : JsVal.jsDiv (JsVal.fin ws) (JsVal.fin wp) = JsVal.fin (ws / wp) := by
    simp only [JsVal.jsDiv]
    rw [if_neg hwp.ne']
  rw [er]
  have erac : JsVal.jsAcosh (JsVal.fin (ws / wp)) = JsVal.fin (arcosh (ws / wp)) := by
    simp only [JsVal.jsAcosh]
    rw [if_neg (not_lt.mpr hr1.le)]
  rw [erac]
  have efin : JsVal.jsDiv
      (JsVal.fin (arcosh (Real.sqrt ((10 : ℝ) ^ (As / 20) * (10 : ℝ) ^ (As / 20) - 1) /
        Real.sqrt ((10 : ℝ) ^ (Ap / 10) - 1))))
      (JsVal.fin (arcosh (ws / wp))) =
      JsVal.fin (arcosh (Real.sqrt ((10 : ℝ) ^ (As / 20) * (10 : ℝ) ^ (As / 20) - 1) /
        Real.sqrt ((10 : ℝ) ^ (Ap / 10) - 1)) / arcosh (ws / wp)) := by
    simp only [JsVal.jsDiv]
    rw [if_neg hd1.ne']
  rw [efin]
  rfl

/-- C7: for feasible specifications the minimum order is non-decreasing in
the stopband attenuation As, and non-increasing in the selectivity ratio
ws/wp (holding Ap and As fixed). -/
theorem c7_min_order_monotone (wp ws Ap As As2 wp2 ws2 : ℝ)
    (hwp : 0 < wp) (hws : wp < ws) (hAp : 0 < Ap) (hAs : Ap ≤ As)
    (hAs2 : As ≤ As2) (hwp2 : 0 < wp2) (hws2 : wp2 < ws2)
    (hratio : ws / wp ≤ ws2 / wp2) :
    ChebyshevSolver.getMinOrder wp ws Ap As ≤ ChebyshevSolver.getMinOrder wp ws Ap As2 ∧
    ChebyshevSolver.getMinOrder wp2 ws2 Ap As ≤ ChebyshevSolver.getMinOrder wp ws Ap As := by
  have heps : (0 : ℝ) < (10 : ℝ) ^ (Ap / 10) - 1 :=
    sub_pos.mpr (Real.one_lt_rpow (by norm_num) (by positivity))
  have hspos : 0 < Real.sqrt ((10 : ℝ) ^ (Ap / 10) - 1) := Real.sqrt_pos.mpr heps
  have harg1 : 1 ≤ Real.sqrt ((10 : ℝ) ^ (As / 20) * (10 : ℝ) ^ (As / 20) - 1) /
      Real.sqrt ((10 : ℝ) ^ (Ap / 10) - 1) := cheb_arg_ge_one hAp hAs
  have harg2 : 1 ≤ Real.sqrt ((10 : ℝ) ^ (As2 / 20) * (10 : ℝ) ^ (As2 / 20) - 1) /
      Real.sqrt ((10 : ℝ) ^ (Ap / 10) - 1) := cheb_arg_ge_one hAp (le_trans hAs hAs2)
  have hr1 : 1 < ws / wp := (one_lt_div hwp).mpr hws
  have hr2 : 1 < ws2 / wp2 := (one_lt_div hwp2).mpr hws2
  have hd1 : 0 < arcosh (ws / wp) := arcosh_pos hr1
  constructor
  · apply Int.ceil_le_ceil
    apply (div_le_div_right hd1).mpr
    apply arcosh_mono harg1
    apply (div_le_div_right hspos).mpr
    apply Real.sqrt_le_sqrt
    have hle : (10 : ℝ) ^ (As / 20) ≤ (10 : ℝ) ^ (As2 / 20) :=
      Real.rpow_le_rpow_of_exponent_le (by norm_num) (by linarith)
    have hpos : (0 : ℝ) < (10 : ℝ) ^ (As / 20) := Real.rpow_pos_of_pos (by norm_num) _
    nlinarith
  · apply Int.ceil_le_ceil
    exact div_le_div_of_nonneg_left (arcosh_nonneg harg1) hd1
      (arcosh_mono hr1.le hratio)

/-- Witness for C7 at (wp, ws, Ap, As) = (1, 2, 3, 30), As2 = 40 and the
wider specification (wp2, ws2) = (1, 4). -/
theorem c7_min_order_monotone_witness :
    (0 : ℝ) < 1 ∧ (1 : ℝ) < 2 ∧ (0 : ℝ) < 3 ∧ (3 : ℝ) ≤ 30 ∧ (30 : ℝ) ≤ 40 ∧
    (0 : ℝ) < 1 ∧ (1 : ℝ) < 4 ∧ (2 / 1 : ℝ) ≤ 4 / 1 ∧
    (ChebyshevSolver.getMinOrder 1 2 3 30 ≤ ChebyshevSolver.getMinOrder 1 2 3 40 ∧
     ChebyshevSolver.getMinOrder 1 4 3 30 ≤ ChebyshevSolver.getMinOrder 1 2 3 30) :=
  ⟨by norm_num, by norm_num, by norm_num, by norm_num, by norm_num, by norm_num,
   by norm_num, by norm_num,
   c7_min_order_monotone 1 2 3 30 40 1 4 (by norm_num) (by norm_num) (by norm_num)
     (by norm_num) (by norm_num) (by norm_num) (by norm_num) (by norm_num)⟩

/-- Witness for C3 at the feasible specification (1, 3, 3, 30). -/
theorem c3_gain_parity_witness :
    (0 : ℝ) < 1 ∧ (1 : ℝ) < 3 ∧ (0 : ℝ) < 3 ∧ (3 : ℝ) < 30 ∧
    (ChebyshevSolver.getBestSolutionStages 1 3 3 30).globalGainDb =
      (if ChebyshevSolver.getMinOrder 1 3 3 30 % 2 = 0 then -(3 : ℝ) else 0) :=
  ⟨by norm_num, by norm_num, by norm_num, by norm_num,
   c3_gain_parity 1 3 3 30 (by norm_num) (by norm_num) (by norm_num) (by norm_num)⟩

end Chebygame
